import Mathlib

/-!
# Verification of the scanner-tool repository

Shallow embedding of the scanner-tool repository (a Tauri/React scanner
simulator).  The data model is translated from `src/types/scanner.ts`
(`src/unnamed/part_000`), the pure helper functions from
`src/services/scannerApi.ts` and the presentation components, and the scan
orchestration engine (scanner registry, job manager, per-job driver) — whose
Rust source is not part of the repository snapshot — is modelled from the
specification.
-/

/-! ## Data model (translated from `src/types/scanner.ts`) -/

inductive ScannerType where
  | Flatbed | DocumentFeeder | SheetFed | Handheld | FilmScanner | PhotoScanner
deriving DecidableEq

/-- `ScannerStatus`: the string variants plus the tagged `Error` object. -/
inductive ScannerStatus where
  | Available
  | Busy
  | Offline
  | Error (msg : String)
deriving DecidableEq

inductive ColorMode where
  | BlackAndWhite | Grayscale | Color
deriving DecidableEq

inductive PaperSize where
  | A4 | A3 | Letter | Legal
  | Custom (width height : ℚ)
deriving DecidableEq

inductive SystemType where
  | Windows | MacOS | Linux
deriving DecidableEq

inductive DocumentType where
  | Text | Image | Mixed | Photo | BusinessCard | Receipt | Contract | Invoice
deriving DecidableEq

inductive OutputFormat where
  | Pdf | Jpeg | Png | Tiff
deriving DecidableEq

/-- `JobStatus`: the string variants plus the tagged `Failed` object. -/
inductive JobStatus where
  | Pending
  | Scanning
  | Processing
  | Completed
  | Failed (reason : String)
  | Cancelled
deriving DecidableEq

structure ScannerCapabilities where
  max_resolution : ℕ
  color_modes : List ColorMode
  paper_sizes : List PaperSize
  has_duplex : Bool
  has_adf : Bool
deriving DecidableEq

structure Scanner where
  id : String
  name : String
  scanner_type : ScannerType
  status : ScannerStatus
  capabilities : ScannerCapabilities
  system_type : SystemType
deriving DecidableEq

structure ScanSettings where
  resolution : ℕ
  color_mode : ColorMode
  paper_size : PaperSize
  duplex : Bool
  output_format : OutputFormat
  quality : ℕ
deriving DecidableEq

structure ScanResult where
  file_path : String
  file_size : ℕ
  pages : ℕ
  resolution : ℕ
  color_mode : ColorMode
  format : OutputFormat
  scan_time : String
deriving DecidableEq

structure ScanJob where
  id : String
  scanner_id : String
  document_type : DocumentType
  scan_settings : ScanSettings
  status : JobStatus
  progress : ℚ
  created_at : String
  completed_at : Option String
  scan_result : Option ScanResult
deriving DecidableEq

structure SystemInfo where
  platform : SystemType
  available_scanners : ℕ
  active_jobs : ℕ
deriving DecidableEq

/-! ## JavaScript value views

A `JobStatus` / `ScannerStatus` value in TypeScript is either a plain string
or a one-field object; the helpers in `scannerApi.ts` dispatch on
`typeof x === "string"` and `"Error" in x` / `"Failed" in x`.  The two
functions below embed that view: `asJsString` is the string a variant equals
when it is a plain string (`none` for the object variants), and the
`*Field` projections read the object variants' field. -/

def JobStatus.asJsString : JobStatus → Option String
  | .Pending => some "Pending"
  | .Scanning => some "Scanning"
  | .Processing => some "Processing"
  | .Completed => some "Completed"
  | .Failed _ => none
  | .Cancelled => some "Cancelled"

def JobStatus.failedField : JobStatus → Option String
  | .Failed reason => some reason
  | _ => none

def ScannerStatus.asJsString : ScannerStatus → Option String
  | .Available => some "Available"
  | .Busy => some "Busy"
  | .Offline => some "Offline"
  | .Error _ => none

def ScannerStatus.errorField : ScannerStatus → Option String
  | .Error msg => some msg
  | _ => none

/-- The JavaScript comparison `status === lit` for a status union value and a
string literal: an object variant is never `===` to a string. -/
def JobStatus.jsEq (s : JobStatus) (lit : String) : Bool :=
  s.asJsString == some lit

/-- `isJobActive` from `src/services/scannerApi.ts`:
`job.status === "Pending" || job.status === "Scanning" || job.status === "Processing"`. -/
def isJobActive (job : ScanJob) : Bool :=
  job.status.jsEq "Pending" || job.status.jsEq "Scanning" || job.status.jsEq "Processing"

/-- `isJobCompleted` from `src/services/scannerApi.ts`. -/
def isJobCompleted (job : ScanJob) : Bool :=
  job.status.jsEq "Completed"

/-- `isJobFailed` from `src/services/scannerApi.ts`:
`typeof job.status === "object" && "Failed" in job.status`. -/
def isJobFailed (job : ScanJob) : Bool :=
  job.status.failedField.isSome

/-- `isScannerAvailable` from `src/services/scannerApi.ts`. -/
def isScannerAvailable (scanner : Scanner) : Bool :=
  scanner.status.asJsString == some "Available"

/-- `getScannerStatusText` from `src/services/scannerApi.ts`: return the
status itself when it is a string, `"Error: " ++ msg` for the `Error`
object, and the fallback `"Unknown"` otherwise. -/
def getScannerStatusText (scanner : Scanner) : String :=
  match scanner.status.asJsString with
  | some s => s
  | none =>
    match scanner.status.errorField with
    | some msg => "Error: " ++ msg
    | none => "Unknown"

/-- `getJobStatusText` from `src/services/scannerApi.ts`. -/
def getJobStatusText (job : ScanJob) : String :=
  match job.status.asJsString with
  | some s => s
  | none =>
    match job.status.failedField with
    | some reason => "Failed: " ++ reason
    | none => "Unknown"

/-- Terminal job states (spec glossary: Completed, Failed, or Cancelled —
no further transitions permitted). -/
def JobStatus.isTerminal : JobStatus → Bool
  | .Completed => true
  | .Failed _ => true
  | .Cancelled => true
  | _ => false

/-! ## Presentation-layer definitions -/

/-- The option list of the resolution select in
`src/components/ScanSettings.tsx`:
`[150, 300, 600, 1200, 2400].filter((res) => res <= maxResolution)`. -/
def resolutionOptions (maxResolution : ℕ) : List ℕ :=
  [150, 300, 600, 1200, 2400].filter fun res => decide (res ≤ maxResolution)

/-- The values producible by the quality slider in
`src/components/ScanSettings.tsx` (`<input type="range" min="10" max="100"
step="5">`): `10, 15, …, 100`. -/
def qualitySliderValues : List ℕ :=
  (List.range 19).map fun k => 10 + 5 * k

/-- The field names declared by the `SystemInfo` interface in
`src/types/scanner.ts`. -/
def systemInfoDeclaredFields : List String :=
  ["platform", "available_scanners", "active_jobs"]

/-- The fields the `SystemInfoPanel` component
(`src/components/SystemInfoPanel.tsx`) reads from its `systemInfo` prop:
`platform` (platform icon and labels), `scanner_api` (Scanner API card),
`available_scanners` and `total_scanners` (scanner counts), and
`active_jobs` (active-job card and system status). -/
def systemInfoPanelReadFields : List String :=
  ["platform", "scanner_api", "available_scanners", "total_scanners", "active_jobs"]

/-- The scanner list presented by `App.tsx`:
`uiState.selectedSystem ? allScanners.filter(s => s.system_type === uiState.selectedSystem) : []`. -/
def appVisibleScanners (allScanners : List Scanner) (selectedSystem : Option SystemType) :
    List Scanner :=
  match selectedSystem with
  | some sys => allScanners.filter fun sc => decide (sc.system_type = sys)
  | none => []

/-- `list_by_system` of the spec's ScannerRegistry, written from the spec's
words for comparison with the App's filter: the scanners whose
`system_type` equals the requested system. -/
def list_by_system (scanners : List Scanner) (sys : SystemType) : List Scanner :=
  scanners.filter fun sc => decide (sc.system_type = sys)

/-- The unit array of `formatFileSize` in `src/components/ScanActions.tsx`. -/
def fileSizes : List String := ["Bytes", "KB", "MB", "GB"]

/-- `Math.round` on a non-negative value: round half away from zero. -/
def jsRound (x : ℚ) : ℤ := ⌊x + 1 / 2⌋

/-- The value/unit pair rendered by `formatFileSize`. -/
structure FormattedSize where
  amount : ℚ
  unit : String
deriving DecidableEq

/-- `formatFileSize` from `src/components/ScanActions.tsx`:
`if (bytes === 0) return '0 Bytes'; const i = Math.floor(Math.log(bytes) / Math.log(1024));
return Math.round(bytes / Math.pow(1024, i) * 100) / 100 + ' ' + sizes[i]`.
The floating-point `Math.floor(Math.log bytes / Math.log 1024)` is embedded
as its exact real-arithmetic value `Nat.log 1024 bytes`; an out-of-range
array access `sizes[i]` would be JavaScript `undefined`, embedded as the
`getD` default `"undefined"`. -/
def formatFileSize (bytes : ℕ) : FormattedSize :=
  if bytes = 0 then { amount := 0, unit := "Bytes" }
  else
    let i := Nat.log 1024 bytes
    { amount := (jsRound ((bytes : ℚ) / 1024 ^ i * 100) : ℚ) / 100,
      unit := fileSizes.getD i "undefined" }

/-! ## The scan orchestration engine

The Rust engine behind the Tauri commands (`ScannerRegistry`,
`ScanJobManager`, `ProgressSimulator`) is not part of the repository
snapshot; the definitions in this section are modelled from the
specification (§3–§5).  Randomized inputs (the driver's terminal-outcome
draw, the event simulator's status picks, connection-test failures) are
injectable parameters of the operations, as §9 requires.  Job and scanner
records live in lists keyed by their unique ids; an update re-checks its
guard on the entry it rewrites, matching a table update keyed by id. -/

/-- Modelled from the spec (§7): the engine's typed domain errors. -/
inductive ScanError where
  | NotFound
  | ScannerUnavailable
  | InvalidSettings
  | InvalidTransition
  | RemovalBlocked
deriving DecidableEq

/-- Modelled from the spec (§4.3): the driver's terminal-outcome draw —
success, or a simulated failure with a reason from the fault pool. -/
inductive DriverOutcome where
  | success
  | failure (reason : String)
deriving DecidableEq

/-- Modelled from the spec (§4.1 `add`): the caller-provided part of a new
scanner record.  The registry's fresh-id assignment is modelled by the `id`
field together with a freshness guard in `add_scanner`. -/
structure ScannerSpec where
  id : String
  name : String
  scanner_type : ScannerType
  capabilities : ScannerCapabilities
  system_type : SystemType
deriving DecidableEq

/-- Modelled from the spec (§2, §3): the engine's in-memory state — the
scanner registry, the job collection (retained indefinitely), and the
counter backing fresh job ids. -/
structure EngineState where
  scanners : List Scanner
  jobs : List ScanJob
  nextJobId : ℕ
deriving DecidableEq

/-- The state at process start: seed scanner data, no jobs. -/
def initState (seed : List Scanner) : EngineState :=
  { scanners := seed, jobs := [], nextJobId := 0 }

def findScanner (st : EngineState) (sid : String) : Option Scanner :=
  st.scanners.find? fun s => s.id == sid

/-- `get_scan_job` (§6): read-only snapshot of one job. -/
def get_scan_job (st : EngineState) (jobId : String) : Option ScanJob :=
  st.jobs.find? fun j => j.id == jobId

/-- `get_all_jobs` (§6): read-only snapshot of the job collection. -/
def get_all_jobs (st : EngineState) : List ScanJob :=
  st.jobs

def setScannerStatus (st : EngineState) (sid : String) (status : ScannerStatus) : EngineState :=
  { st with scanners := st.scanners.map fun s => if s.id = sid then { s with status := status } else s }

def updateJobs (st : EngineState) (jobId : String) (f : ScanJob → ScanJob) : EngineState :=
  { st with jobs := st.jobs.map fun j => if j.id = jobId then f j else j }

/-- The non-terminal jobs referencing a scanner — the claims held on it
(spec glossary: a claim is the exclusive association between a scanner and
one non-terminal job). -/
def claimsOn (jobs : List ScanJob) (sid : String) : List ScanJob :=
  jobs.filter fun j => !j.status.isTerminal && j.scanner_id == sid

/-- Whether some non-terminal job currently claims the scanner. -/
def scannerClaimed (jobs : List ScanJob) (sid : String) : Bool :=
  jobs.any fun j => !j.status.isTerminal && j.scanner_id == sid

/-- Modelled from the spec (§4.2 `create_job`): settings validation against
the scanner's capabilities — resolution within `max_resolution`, color mode
and paper size supported (or `Custom` with positive dimensions), duplex only
if the scanner has duplex. -/
def validSettings (caps : ScannerCapabilities) (s : ScanSettings) : Bool :=
  decide (s.resolution ≤ caps.max_resolution) &&
  decide (s.color_mode ∈ caps.color_modes) &&
  (decide (s.paper_size ∈ caps.paper_sizes) ||
    (match s.paper_size with
     | .Custom w h => decide (0 < w) && decide (0 < h)
     | _ => false)) &&
  (!s.duplex || caps.has_duplex)

/-- Modelled from the spec (§4.2 `create_job`): `NotFound` for an unknown
scanner, `ScannerUnavailable` unless the scanner is `Available`,
`InvalidSettings` on a capability violation; otherwise create the job in
`Pending` with progress 0 and claim the scanner (status → `Busy`) atomically
with job creation. -/
def create_job (st : EngineState) (scannerId : String) (doc : DocumentType)
    (settings : ScanSettings) (now : String) : Except ScanError String × EngineState :=
  match findScanner st scannerId with
  | none => (.error .NotFound, st)
  | some sc =>
    if sc.status = ScannerStatus.Available then
      if validSettings sc.capabilities settings then
        let jid := Nat.repr st.nextJobId
        let job : ScanJob :=
          { id := jid, scanner_id := scannerId, document_type := doc,
            scan_settings := settings, status := .Pending, progress := 0,
            created_at := now, completed_at := none, scan_result := none }
        (.ok jid,
          { scanners := (setScannerStatus st scannerId .Busy).scanners,
            jobs := st.jobs ++ [job], nextJobId := st.nextJobId + 1 })
      else (.error .InvalidSettings, st)
    else (.error .ScannerUnavailable, st)

/-- Modelled from the spec (§4.2 `start_job`): `NotFound` for an unknown
job, `InvalidTransition` unless the job is `Pending`; otherwise transition
to `Scanning` (the driver is spawned for it). -/
def start_job (st : EngineState) (jobId : String) : Except ScanError Unit × EngineState :=
  match get_scan_job st jobId with
  | none => (.error .NotFound, st)
  | some j =>
    if j.status = JobStatus.Pending then
      (.ok (), updateJobs st jobId fun x =>
        if x.status = JobStatus.Pending then { x with status := .Scanning } else x)
    else (.error .InvalidTransition, st)

/-- Modelled from the spec (§4.3): the driver advances by `1/steps` per
step, with the reference step count 20. -/
def progressStep : ℚ := 1 / 20

/-- Modelled from the spec (§4.3): the Scanning → Processing fraction,
reference 80%. -/
def processingThreshold : ℚ := 8 / 10

/-- Modelled from the spec (§4.3): the pages of the synthesized result are
derived from the document type, doubled for duplex. -/
def pagesFor (doc : DocumentType) (duplex : Bool) : ℕ :=
  let base : ℕ :=
    match doc with
    | .Text => 3
    | .Image => 1
    | .Mixed => 5
    | .Photo => 1
    | .BusinessCard => 1
    | .Receipt => 1
    | .Contract => 10
    | .Invoice => 2
  if duplex then base * 2 else base

/-- Modelled from the spec (§4.3): a color-mode weight for the file-size
formula, increasing with color depth. -/
def colorFactor : ColorMode → ℕ
  | .BlackAndWhite => 1
  | .Grayscale => 2
  | .Color => 3

/-- Modelled from the spec (§4.3): the synthesized file size, monotonically
increasing in resolution, quality, pages and color depth. -/
def fileSizeFor (settings : ScanSettings) (pages : ℕ) : ℕ :=
  settings.resolution * settings.quality * pages * colorFactor settings.color_mode

/-- Modelled from the spec (§4.3): the `scan_result` synthesized on
successful completion. -/
def synthesizeResult (x : ScanJob) (now : String) : ScanResult :=
  let pages := pagesFor x.document_type x.scan_settings.duplex
  { file_path := "/scans/" ++ x.id,
    file_size := fileSizeFor x.scan_settings pages,
    pages := pages,
    resolution := x.scan_settings.resolution,
    color_mode := x.scan_settings.color_mode,
    format := x.scan_settings.output_format,
    scan_time := now }

/-- Modelled from the spec (§4.3, §5): one driver step applied to a job
record.  While the job is `Scanning`/`Processing` it advances progress by
one step, flipping to `Processing` at the threshold; the step that would
reach full progress instead applies the drawn terminal outcome atomically
with the progress update (§5's per-job atomic status/progress snapshot, and
§8's `progress = 1.0 iff Completed`): on success progress becomes 1 and a
result is synthesized, on a simulated failure the job becomes `Failed` with
its progress left below 1.  A job that is `Pending` or terminal is left
untouched (cooperative cancellation: a cancelled job is terminal, so the
driver performs no terminal-outcome draw for it). -/
def driverUpdate (outcome : DriverOutcome) (now : String) (x : ScanJob) : ScanJob :=
  match x.status with
  | .Scanning | .Processing =>
    let p := x.progress + progressStep
    if p < 1 then
      { x with progress := p,
               status := if processingThreshold ≤ p then .Processing else x.status }
    else
      match outcome with
      | .success =>
        { x with progress := 1, status := .Completed, completed_at := some now,
                 scan_result := some (synthesizeResult x now) }
      | .failure reason =>
        { x with status := .Failed reason, completed_at := some now }
  | _ => x

/-- Modelled from the spec (§4.3): one step of the driver owned by a job —
a no-op unless the job exists and is `Scanning`/`Processing`; on the
terminal step the scanner claim is released back to the registry
(status → `Available`). -/
def driver_step (st : EngineState) (jobId : String) (outcome : DriverOutcome)
    (now : String) : EngineState :=
  match get_scan_job st jobId with
  | none => st
  | some j =>
    match j.status with
    | .Scanning | .Processing =>
      let st' := updateJobs st jobId (driverUpdate outcome now)
      if j.progress + progressStep < 1 then st'
      else setScannerStatus st' j.scanner_id .Available
    | _ => st

/-- Modelled from the spec (§4.2 `cancel_job`): `NotFound` for an unknown
job, `InvalidTransition` if the job is already terminal; otherwise set the
status to `Cancelled`, record `completed_at`, and release the scanner
claim. -/
def cancel_job (st : EngineState) (jobId now : String) : Except ScanError Unit × EngineState :=
  match get_scan_job st jobId with
  | none => (.error .NotFound, st)
  | some j =>
    if j.status.isTerminal then (.error .InvalidTransition, st)
    else
      (.ok (),
        setScannerStatus
          (updateJobs st jobId fun x =>
            if x.status.isTerminal then x
            else { x with status := .Cancelled, completed_at := some now })
          j.scanner_id .Available)

/-- Modelled from the spec (§4.1 `test_connection`, §9): with the injected
failure draw the probe sets the scanner's status to `Error(reason)` and
reports `false`; on success it reports `true` and — resolving §9's open
question to the non-mutating reading — leaves the status untouched. -/
def test_connection (st : EngineState) (sid : String) (fails : Bool)
    (reason : String) : Except ScanError Bool × EngineState :=
  match findScanner st sid with
  | none => (.error .NotFound, st)
  | some _ =>
    if fails then (.ok false, setScannerStatus st sid (.Error reason))
    else (.ok true, st)

/-- Modelled from the spec (§4.1 `reset_status`): unconditionally force the
scanner's status to `Available`; `NotFound` if the scanner is unknown. -/
def reset_status (st : EngineState) (sid : String) : Except ScanError Unit × EngineState :=
  match findScanner st sid with
  | none => (.error .NotFound, st)
  | some _ => (.ok (), setScannerStatus st sid .Available)

/-- Modelled from the spec (§4.1 `simulate_events`): assign each scanner a
new status drawn by the injected pick (`none` = scanner not in the random
subset), except that scanners currently claimed by a non-terminal job are
never altered. -/
def simulate_events (st : EngineState) (pick : String → Option ScannerStatus) : EngineState :=
  { st with scanners := st.scanners.map fun s =>
      if scannerClaimed st.jobs s.id then s
      else
        match pick s.id with
        | some newStatus => { s with status := newStatus }
        | none => s }

/-- Modelled from the spec (§4.1 `add`): validate a non-empty name,
non-empty color modes and paper sizes, and a positive max resolution; the
fresh-id assignment is modelled by rejecting a proposed id already used by a
scanner or referenced by a job (invariant 6: ids are globally unique).  The
new record starts `Available`. -/
def add_scanner (st : EngineState) (spec : ScannerSpec) : Except ScanError String × EngineState :=
  if spec.name = "" ∨ spec.capabilities.color_modes = [] ∨ spec.capabilities.paper_sizes = [] ∨
      spec.capabilities.max_resolution = 0 then
    (.error .InvalidSettings, st)
  else if st.scanners.any (fun s => s.id == spec.id) || st.jobs.any (fun j => j.scanner_id == spec.id) then
    (.error .InvalidSettings, st)
  else
    (.ok spec.id,
      { st with scanners := st.scanners ++
          [{ id := spec.id, name := spec.name, scanner_type := spec.scanner_type,
             status := .Available, capabilities := spec.capabilities,
             system_type := spec.system_type }] })

/-- Modelled from the spec (§4.1 `remove`): fails with `RemovalBlocked`
while any non-terminal job references the scanner, `NotFound` if unknown;
otherwise deletes the record. -/
def remove_scanner (st : EngineState) (sid : String) : Except ScanError Unit × EngineState :=
  match findScanner st sid with
  | none => (.error .NotFound, st)
  | some _ =>
    if scannerClaimed st.jobs sid then (.error .RemovalBlocked, st)
    else (.ok (), { st with scanners := st.scanners.filter fun s => !(s.id == sid) })

/-- Modelled from the spec (§5, §6): the engine's command alphabet.  Each
constructor carries the injected random draws its operation consumes. -/
inductive EngineOp where
  | createJob (scannerId : String) (doc : DocumentType) (settings : ScanSettings) (now : String)
  | startJob (jobId : String)
  | driverStep (jobId : String) (outcome : DriverOutcome) (now : String)
  | cancelJob (jobId : String) (now : String)
  | simulateEvents (pick : String → Option ScannerStatus)
  | testConnection (scannerId : String) (fails : Bool) (reason : String)
  | resetStatus (scannerId : String)
  | addScanner (spec : ScannerSpec)
  | removeScanner (scannerId : String)

/-- The state transition of one engine operation. -/
def applyOp (st : EngineState) : EngineOp → EngineState
  | .createJob sid doc s now => (create_job st sid doc s now).2
  | .startJob jid => (start_job st jid).2
  | .driverStep jid outcome now => driver_step st jid outcome now
  | .cancelJob jid now => (cancel_job st jid now).2
  | .simulateEvents pick => simulate_events st pick
  | .testConnection sid fails reason => (test_connection st sid fails reason).2
  | .resetStatus sid => (reset_status st sid).2
  | .addScanner spec => (add_scanner st spec).2
  | .removeScanner sid => (remove_scanner st sid).2

/-- Run a sequence of engine operations. -/
def runOps (st : EngineState) (ops : List EngineOp) : EngineState :=
  ops.foldl applyOp st

/-- The operations that leave the claim discipline intact: everything except
`reset_scanner_status` (which forces a claimed scanner back to `Available`)
and a failing `test_connection` (which overwrites a claimed scanner's `Busy`
with `Error`). -/
def claimSafe : EngineOp → Bool
  | .resetStatus _ => false
  | .testConnection _ fails _ => !fails
  | _ => true

/-- Claim exclusivity (spec invariant 2): at most one non-terminal job
references any scanner. -/
def ClaimExclusive (st : EngineState) : Prop :=
  ∀ sid : String, (claimsOn st.jobs sid).length ≤ 1

/-- The claim/Busy tie (spec invariant 1, the claimed → Busy direction): a
scanner claimed by a non-terminal job has status `Busy`. -/
def ClaimedBusy (st : EngineState) : Prop :=
  ∀ sc ∈ st.scanners, claimsOn st.jobs sc.id ≠ [] → sc.status = ScannerStatus.Busy

/-- The per-record job invariants (spec invariants 3 and 4, §8): progress in
`[0, 1]`, progress `= 1` exactly for `Completed`, and `scan_result` present
exactly for `Completed`. -/
def JobRecordInv (j : ScanJob) : Prop :=
  0 ≤ j.progress ∧ j.progress ≤ 1 ∧
  (j.progress = 1 ↔ j.status = JobStatus.Completed) ∧
  (j.scan_result.isSome = true ↔ j.status = JobStatus.Completed)

/-- All job records of a state satisfy `JobRecordInv`. -/
def JobsInv (st : EngineState) : Prop :=
  ∀ j ∈ st.jobs, JobRecordInv j

/-! ## Helper lemmas -/

theorem error_text_ne_unknown (m : String) : "Error: " ++ m ≠ "Unknown" := by
  intro h
  have hlen := congrArg String.length h
  rw [String.length_append] at hlen
  have h1 : ("Error: " : String).length = 7 := by decide
  have h2 : ("Unknown" : String).length = 7 := by decide
  have hm0 : m.length = 0 := by omega
  have hm : m = "" := by
    cases m with
    | mk data =>
      cases data with
      | nil => rfl
      | cons c cs =>
        have : (c :: cs).length = 0 := hm0
        simp at this
  subst hm
  exact absurd h (by decide)

theorem failed_text_ne_unknown (m : String) : "Failed: " ++ m ≠ "Unknown" := by
  intro h
  have hlen := congrArg String.length h
  rw [String.length_append] at hlen
  have h1 : ("Failed: " : String).length = 8 := by decide
  have h2 : ("Unknown" : String).length = 7 := by decide
  omega

/-! ## Claims about the presentation layer and API helpers -/

/-- C5: for every `ScanJob`, `isJobActive` returns `true` exactly when the
status is `Pending`, `Scanning` or `Processing` — equivalently, exactly when
the status is not one of the terminal states `Completed`, `Failed`,
`Cancelled`. -/
theorem isJobActive_iff_not_terminal (j : ScanJob) :
    (isJobActive j = true ↔
      (j.status = JobStatus.Pending ∨ j.status = JobStatus.Scanning ∨
        j.status = JobStatus.Processing)) ∧
    (isJobActive j = true ↔ j.status.isTerminal = false) := by
  cases h : j.status <;>
    simp [isJobActive, JobStatus.jsEq, JobStatus.asJsString, JobStatus.isTerminal, h]

/-- C9: for every well-typed `ScannerStatus` and `JobStatus`,
`getScannerStatusText` and `getJobStatusText` never return the fallback
string `"Unknown"`: the string variants and the `Error`/`Failed` object
variants cover the whole status type. -/
theorem statusText_never_unknown (sc : Scanner) (j : ScanJob) :
    getScannerStatusText sc ≠ "Unknown" ∧ getJobStatusText j ≠ "Unknown" := by
  constructor
  · cases h : sc.status <;>
      simp only [getScannerStatusText, ScannerStatus.asJsString, ScannerStatus.errorField, h]
    case Available => decide
    case Busy => decide
    case Offline => decide
    case Error msg => exact error_text_ne_unknown msg
  · cases h : j.status <;>
      simp only [getJobStatusText, JobStatus.asJsString, JobStatus.failedField, h]
    case Pending => decide
    case Scanning => decide
    case Processing => decide
    case Completed => decide
    case Cancelled => decide
    case Failed reason => exact failed_text_ne_unknown reason

/-- C7: for every scanner list and selected system, the scanner list the App
presents contains exactly the scanners whose `system_type` equals the
selected system (realizing the registry's `list_by_system`), and with no
system selected the presented list is empty. -/
theorem appVisibleScanners_spec (allScanners : List Scanner) (sys : SystemType) (sc : Scanner) :
    (sc ∈ appVisibleScanners allScanners (some sys) ↔
      sc ∈ allScanners ∧ sc.system_type = sys) ∧
    appVisibleScanners allScanners (some sys) = list_by_system allScanners sys ∧
    appVisibleScanners allScanners none = [] := by
  refine ⟨?_, rfl, rfl⟩
  simp [appVisibleScanners, List.mem_filter]

/-- C8: every resolution option offered by the scan-settings editor is at
most the scanner's `max_resolution`, and every quality value producible by
the editor's slider is an integer in `[10, 100]`. -/
theorem scanSettingsEditor_bounds (m r q : ℕ)
    (hr : r ∈ resolutionOptions m) (hq : q ∈ qualitySliderValues) :
    r ≤ m ∧ 10 ≤ q ∧ q ≤ 100 := by
  refine ⟨?_, ?_⟩
  · have := (List.mem_filter.mp hr).2
    simpa using this
  · simp only [qualitySliderValues, List.mem_map, List.mem_range] at hq
    obtain ⟨k, hk, rfl⟩ := hq
    omega

theorem scanSettingsEditor_bounds_witness :
    300 ∈ resolutionOptions 600 ∧ 50 ∈ qualitySliderValues ∧
    (300 ≤ 600 ∧ 10 ≤ 50 ∧ 50 ≤ 100) :=
  ⟨by decide, by decide, scanSettingsEditor_bounds 600 300 50 (by decide) (by decide)⟩

/-- C4 (refuting half): the `SystemInfoPanel` component reads the fields
`scanner_api` and `total_scanners` from its `SystemInfo` prop, but the
`SystemInfo` type declares only `platform`, `available_scanners` and
`active_jobs` — so not every field read by the panel is a declared field. -/
theorem systemInfoPanel_reads_undeclared_fields :
    "scanner_api" ∈ systemInfoPanelReadFields ∧
    "total_scanners" ∈ systemInfoPanelReadFields ∧
    "scanner_api" ∉ systemInfoDeclaredFields ∧
    "total_scanners" ∉ systemInfoDeclaredFields ∧
    ¬ (∀ f ∈ systemInfoPanelReadFields, f ∈ systemInfoDeclaredFields) := by
  decide

/-- C10: for every byte count `b < 1024 ^ 4`, `formatFileSize` scales by
`1024 ^ i` for `i = ⌊log_1024 b⌋` and suffixes one of the units
`Bytes`/`KB`/`MB`/`GB` (the unit-array index stays in range), and
`formatFileSize 0` is `0 Bytes`. -/
theorem formatFileSize_spec (b : ℕ) (hb : b < 1024 ^ 4) :
    Nat.log 1024 b < fileSizes.length ∧
    (formatFileSize b).unit ∈ fileSizes ∧
    (b ≠ 0 →
      (formatFileSize b).unit = fileSizes.getD (Nat.log 1024 b) "undefined" ∧
      (formatFileSize b).amount =
        (jsRound ((b : ℚ) / 1024 ^ Nat.log 1024 b * 100) : ℚ) / 100) ∧
    formatFileSize 0 = { amount := 0, unit := "Bytes" } := by
  have hgetD : ∀ i < 4, fileSizes.getD i "undefined" ∈ fileSizes := by decide
  have hlog : Nat.log 1024 b < 4 := by
    rcases Nat.eq_zero_or_pos b with h0 | h0
    · subst h0; simp
    · exact Nat.log_lt_of_lt_pow (Nat.pos_iff_ne_zero.mp h0) hb
  refine ⟨hlog, ?_, ?_, rfl⟩
  · by_cases h0 : b = 0
    · subst h0; decide
    · rw [formatFileSize, if_neg h0]
      exact hgetD _ hlog
  · intro h0
    rw [formatFileSize, if_neg h0]
    exact ⟨rfl, rfl⟩

theorem formatFileSize_spec_witness :
    2048 < 1024 ^ 4 ∧
    (Nat.log 1024 2048 < fileSizes.length ∧
      (formatFileSize 2048).unit ∈ fileSizes ∧
      (2048 ≠ 0 →
        (formatFileSize 2048).unit = fileSizes.getD (Nat.log 1024 2048) "undefined" ∧
        (formatFileSize 2048).amount =
          (jsRound ((2048 : ℚ) / 1024 ^ Nat.log 1024 2048 * 100) : ℚ) / 100) ∧
      formatFileSize 0 = { amount := 0, unit := "Bytes" }) :=
  ⟨by norm_num, formatFileSize_spec 2048 (by norm_num)⟩

/-! ## Engine invariant infrastructure -/

theorem list_eq_singleton_of_length_le_one {α : Type} {l : List α} {a : α}
    (h : l.length ≤ 1) (ha : a ∈ l) : l = [a] := by
  cases l with
  | nil => exact absurd ha (List.not_mem_nil a)
  | cons b t =>
    have ht : t = [] := by
      cases t with
      | nil => rfl
      | cons c u => simp at h
    subst ht
    have hab : a = b := by simpa using ha
    subst hab
    rfl

theorem filter_map_comm {α : Type} (u : α → α) (p : α → Bool) (l : List α) :
    (l.map u).filter p = (l.filter fun a => p (u a)).map u := by
  induction l with
  | nil => rfl
  | cons a t ih =>
    simp only [List.map_cons, List.filter_cons, ih]
    cases h : p (u a) <;> simp

theorem filter_length_le_of_imp {α : Type} (p q : α → Bool) (l : List α)
    (h : ∀ a, q a = true → p a = true) :
    (l.filter q).length ≤ (l.filter p).length := by
  induction l with
  | nil => simp
  | cons a t ih =>
    simp only [List.filter_cons]
    cases hq : q a with
    | false =>
      cases hp : p a with
      | false => simpa using ih
      | true => simpa using Nat.le_succ_of_le ih
    | true =>
      rw [h a hq]
      simpa using ih

theorem scan_result_none_of_not_completed (j : ScanJob) (hinv : JobRecordInv j)
    (h : j.status ≠ JobStatus.Completed) : j.scan_result = none := by
  obtain ⟨-, -, -, hres⟩ := hinv
  cases hx : j.scan_result with
  | none => rfl
  | some r => exact absurd (hres.mp (by rw [hx]; rfl)) h

theorem progress_lt_one_of_not_completed (j : ScanJob) (hinv : JobRecordInv j)
    (h : j.status ≠ JobStatus.Completed) : j.progress < 1 := by
  obtain ⟨-, h1, hiff, -⟩ := hinv
  exact lt_of_le_of_ne h1 fun he => h (hiff.mp he)

theorem jobRecordInv_of_not_completed (j : ScanJob) (hp : 0 ≤ j.progress)
    (hp1 : j.progress < 1) (hs : j.status ≠ JobStatus.Completed)
    (hr : j.scan_result = none) : JobRecordInv j :=
  ⟨hp, hp1.le, ⟨fun h => absurd h hp1.ne, fun h => absurd h hs⟩,
    ⟨fun h => by rw [hr] at h; exact absurd h (by simp), fun h => absurd h hs⟩⟩

theorem progressStep_pos : (0 : ℚ) < progressStep := by norm_num [progressStep]

theorem jobRecordInv_driverUpdate (outcome : DriverOutcome) (now : String) (x : ScanJob)
    (h : JobRecordInv x) : JobRecordInv (driverUpdate outcome now x) := by
  have h0 := h.1
  cases hst : x.status with
  | Scanning =>
    simp only [driverUpdate.eq_def, hst]
    have hlt : x.progress < 1 :=
      progress_lt_one_of_not_completed x h (by rw [hst]; simp)
    have hres : x.scan_result = none :=
      scan_result_none_of_not_completed x h (by rw [hst]; simp)
    by_cases hp : x.progress + progressStep < 1
    · rw [if_pos hp]
      refine jobRecordInv_of_not_completed _ (by dsimp; linarith [progressStep_pos]) (by dsimp; exact hp) ?_ (by dsimp; exact hres)
      dsimp
      split <;> simp
    · rw [if_neg hp]
      cases outcome with
      | success =>
        exact ⟨by norm_num, by norm_num, ⟨fun _ => rfl, fun _ => rfl⟩, ⟨fun _ => rfl, fun _ => rfl⟩⟩
      | failure reason =>
        exact jobRecordInv_of_not_completed _ (by dsimp; exact h0) (by dsimp; exact hlt)
          (by dsimp; simp) (by dsimp; exact hres)
  | Processing =>
    simp only [driverUpdate.eq_def, hst]
    have hlt : x.progress < 1 :=
      progress_lt_one_of_not_completed x h (by rw [hst]; simp)
    have hres : x.scan_result = none :=
      scan_result_none_of_not_completed x h (by rw [hst]; simp)
    by_cases hp : x.progress + progressStep < 1
    · rw [if_pos hp]
      refine jobRecordInv_of_not_completed _ (by dsimp; linarith [progressStep_pos]) (by dsimp; exact hp) ?_ (by dsimp; exact hres)
      dsimp
      split <;> simp [hst]
    · rw [if_neg hp]
      cases outcome with
      | success =>
        exact ⟨by norm_num, by norm_num, ⟨fun _ => rfl, fun _ => rfl⟩, ⟨fun _ => rfl, fun _ => rfl⟩⟩
      | failure reason =>
        exact jobRecordInv_of_not_completed _ (by dsimp; exact h0) (by dsimp; exact hlt)
          (by dsimp; simp) (by dsimp; exact hres)
  | Pending => simp only [driverUpdate.eq_def, hst]; exact h
  | Completed => simp only [driverUpdate.eq_def, hst]; exact h
  | Failed reason => simp only [driverUpdate.eq_def, hst]; exact h
  | Cancelled => simp only [driverUpdate.eq_def, hst]; exact h

theorem jobRecordInv_startUpdate (x : ScanJob) (h : JobRecordInv x) :
    JobRecordInv (if x.status = JobStatus.Pending then { x with status := .Scanning } else x) := by
  by_cases hst : x.status = JobStatus.Pending
  · rw [if_pos hst]
    exact jobRecordInv_of_not_completed _ h.1
      (progress_lt_one_of_not_completed x h (by rw [hst]; simp)) (by simp)
      (scan_result_none_of_not_completed x h (by rw [hst]; simp))
  · rw [if_neg hst]; exact h

theorem jobRecordInv_cancelUpdate (now : String) (x : ScanJob) (h : JobRecordInv x) :
    JobRecordInv (if x.status.isTerminal then x
      else { x with status := .Cancelled, completed_at := some now }) := by
  by_cases hst : x.status.isTerminal = true
  · rw [if_pos hst]; exact h
  · rw [if_neg hst]
    have hnc : x.status ≠ JobStatus.Completed := by
      intro he
      rw [he] at hst
      exact hst rfl
    exact jobRecordInv_of_not_completed _ h.1
      (progress_lt_one_of_not_completed x h hnc) (by simp)
      (scan_result_none_of_not_completed x h hnc)

theorem jobRecordInv_keyedUpdate (jobId : String) (f : ScanJob → ScanJob)
    (hf : ∀ x, JobRecordInv x → JobRecordInv (f x)) (x : ScanJob) (h : JobRecordInv x) :
    JobRecordInv (if x.id = jobId then f x else x) := by
  by_cases hid : x.id = jobId
  · rw [if_pos hid]; exact hf x h
  · rw [if_neg hid]; exact h

theorem jobRecordInv_newJob (jid sid : String) (doc : DocumentType) (s : ScanSettings)
    (now : String) :
    JobRecordInv { id := jid, scanner_id := sid, document_type := doc, scan_settings := s,
                   status := .Pending, progress := 0, created_at := now,
                   completed_at := none, scan_result := none } :=
  jobRecordInv_of_not_completed _ le_rfl (by norm_num) (by simp) rfl

theorem jobsInv_applyOp (st : EngineState) (op : EngineOp) (h : JobsInv st) :
    JobsInv (applyOp st op) := by
  cases op with
  | createJob sid doc s now =>
    simp only [applyOp, create_job]
    rcases hfind : findScanner st sid with _ | sc <;> simp only [hfind]
    · exact h
    · by_cases hA : sc.status = ScannerStatus.Available
      · rw [if_pos hA]
        by_cases hV : validSettings sc.capabilities s = true
        · rw [if_pos hV]
          intro j hj
          rcases List.mem_append.mp hj with hj1 | hj2
          · exact h j hj1
          · rw [List.mem_singleton.mp hj2]
            exact jobRecordInv_newJob _ _ _ _ _
        · rw [if_neg hV]; exact h
      · rw [if_neg hA]; exact h
  | startJob jid =>
    simp only [applyOp, start_job]
    rcases hfind : get_scan_job st jid with _ | j0 <;> simp only [hfind]
    · exact h
    · by_cases hP : j0.status = JobStatus.Pending
      · rw [if_pos hP]
        intro j hj
        obtain ⟨x, hx, rfl⟩ := List.mem_map.mp hj
        exact jobRecordInv_keyedUpdate jid _ (fun x hxinv => jobRecordInv_startUpdate x hxinv) x (h x hx)
      · rw [if_neg hP]; exact h
  | driverStep jid outcome now =>
    simp only [applyOp, driver_step]
    rcases hfind : get_scan_job st jid with _ | j0 <;> simp only [hfind]
    · exact h
    · have key : JobsInv (updateJobs st jid (driverUpdate outcome now)) := by
        intro j hj
        obtain ⟨x, hx, rfl⟩ := List.mem_map.mp hj
        exact jobRecordInv_keyedUpdate jid _ (jobRecordInv_driverUpdate outcome now) x (h x hx)
      split
      · split <;> exact key
      · split <;> exact key
      · exact h
  | cancelJob jid now =>
    simp only [applyOp, cancel_job]
    rcases hfind : get_scan_job st jid with _ | j0 <;> simp only [hfind]
    · exact h
    · by_cases hT : j0.status.isTerminal = true
      · rw [if_pos hT]; exact h
      · rw [if_neg hT]
        intro j hj
        obtain ⟨x, hx, rfl⟩ := List.mem_map.mp hj
        exact jobRecordInv_keyedUpdate jid _ (fun x hxinv => jobRecordInv_cancelUpdate now x hxinv) x (h x hx)
  | simulateEvents pick => exact h
  | testConnection sid fails reason =>
    simp only [applyOp, test_connection]
    rcases hfind : findScanner st sid with _ | sc <;> simp only [hfind]
    · exact h
    · by_cases hf : fails = true
      · rw [if_pos hf]; exact h
      · rw [if_neg hf]; exact h
  | resetStatus sid =>
    simp only [applyOp, reset_status]
    rcases hfind : findScanner st sid with _ | sc <;> simp only [hfind]
    · exact h
    · exact h
  | addScanner spec =>
    simp only [applyOp, add_scanner]
    split
    · exact h
    · split
      · exact h
      · exact h
  | removeScanner sid =>
    simp only [applyOp, remove_scanner]
    rcases hfind : findScanner st sid with _ | sc <;> simp only [hfind]
    · exact h
    · by_cases hc : scannerClaimed st.jobs sid = true
      · rw [if_pos hc]; exact h
      · rw [if_neg hc]; exact h

theorem jobsInv_init (seed : List Scanner) : JobsInv (initState seed) := by
  intro j hj
  exact absurd hj (List.not_mem_nil j)

theorem jobsInv_runOps (ops : List EngineOp) (st : EngineState) (h : JobsInv st) :
    JobsInv (runOps st ops) := by
  induction ops generalizing st with
  | nil => exact h
  | cons op rest ih => exact ih _ (jobsInv_applyOp st op h)


theorem runOps_append (st : EngineState) (l l' : List EngineOp) :
    runOps st (l ++ l') = runOps (runOps st l) l' := by
  simp [runOps, List.foldl_append]

theorem mono_map_case (l : List ScanJob) (u : ScanJob → ScanJob)
    (hu : ∀ x ∈ l, (u x).id = x.id ∧ x.progress ≤ (u x).progress)
    (k : ℕ) (j : ScanJob) (hj : l[k]? = some j) :
    ∃ j', (l.map u)[k]? = some j' ∧ j'.id = j.id ∧ j.progress ≤ j'.progress := by
  have hmem : j ∈ l := List.getElem?_mem hj
  refine ⟨u j, ?_, (hu j hmem).1, (hu j hmem).2⟩
  rw [List.getElem?_map, hj]
  rfl

theorem driverUpdate_mono (outcome : DriverOutcome) (now : String) (x : ScanJob)
    (hinv : JobRecordInv x) :
    (driverUpdate outcome now x).id = x.id ∧
    x.progress ≤ (driverUpdate outcome now x).progress := by
  have hle := hinv.2.1
  cases hst : x.status <;> simp only [driverUpdate.eq_def, hst]
  case Pending => exact ⟨by simp, le_refl _⟩
  case Completed => exact ⟨by simp, le_refl _⟩
  case Cancelled => exact ⟨by simp, le_refl _⟩
  case Failed reason => exact ⟨by simp, le_refl _⟩
  case Scanning =>
    by_cases hp : x.progress + progressStep < 1
    · rw [if_pos hp]
      exact ⟨rfl, by dsimp; linarith [progressStep_pos]⟩
    · rw [if_neg hp]
      cases outcome with
      | success => exact ⟨rfl, by dsimp; exact hle⟩
      | failure reason => exact ⟨rfl, le_refl _⟩
  case Processing =>
    by_cases hp : x.progress + progressStep < 1
    · rw [if_pos hp]
      exact ⟨rfl, by dsimp; linarith [progressStep_pos]⟩
    · rw [if_neg hp]
      cases outcome with
      | success => exact ⟨rfl, by dsimp; exact hle⟩
      | failure reason => exact ⟨rfl, le_refl _⟩

theorem keyedUpdate_mono (jid : String) (f : ScanJob → ScanJob)
    (hf : ∀ x, JobRecordInv x → (f x).id = x.id ∧ x.progress ≤ (f x).progress)
    (x : ScanJob) (hinv : JobRecordInv x) :
    ((if x.id = jid then f x else x)).id = x.id ∧
    x.progress ≤ ((if x.id = jid then f x else x)).progress := by
  by_cases hid : x.id = jid
  · rw [if_pos hid]; exact hf x hinv
  · rw [if_neg hid]; exact ⟨rfl, le_refl _⟩

theorem jobs_mono_applyOp (st : EngineState) (op : EngineOp) (h : JobsInv st)
    (k : ℕ) (j : ScanJob) (hj : st.jobs[k]? = some j) :
    ∃ j', (applyOp st op).jobs[k]? = some j' ∧ j'.id = j.id ∧ j.progress ≤ j'.progress := by
  cases op with
  | createJob sid doc s now =>
    simp only [applyOp, create_job]
    rcases hfind : findScanner st sid with _ | sc <;> simp only [hfind]
    · exact ⟨j, hj, rfl, le_refl _⟩
    · by_cases hA : sc.status = ScannerStatus.Available
      · rw [if_pos hA]
        by_cases hV : validSettings sc.capabilities s = true
        · rw [if_pos hV]
          have hlt : k < st.jobs.length := by
            by_contra hge
            rw [List.getElem?_eq_none (by omega)] at hj
            exact Option.noConfusion hj
          refine ⟨j, ?_, rfl, le_refl _⟩
          rw [List.getElem?_append_left hlt]
          exact hj
        · rw [if_neg hV]; exact ⟨j, hj, rfl, le_refl _⟩
      · rw [if_neg hA]; exact ⟨j, hj, rfl, le_refl _⟩
  | startJob jid =>
    simp only [applyOp, start_job]
    rcases hfind : get_scan_job st jid with _ | j0 <;> simp only [hfind]
    · exact ⟨j, hj, rfl, le_refl _⟩
    · by_cases hP : j0.status = JobStatus.Pending
      · rw [if_pos hP]
        refine mono_map_case st.jobs _ ?_ k j hj
        intro x hx
        refine keyedUpdate_mono jid
          (fun y => if y.status = JobStatus.Pending then { y with status := .Scanning } else y)
          ?_ x (h x hx)
        intro y hy
        by_cases hyP : y.status = JobStatus.Pending
        · simp only [if_pos hyP]; exact ⟨by simp, le_refl _⟩
        · simp only [if_neg hyP]; exact ⟨by simp, le_refl _⟩
      · rw [if_neg hP]; exact ⟨j, hj, rfl, le_refl _⟩
  | driverStep jid outcome now =>
    simp only [applyOp, driver_step]
    rcases hfind : get_scan_job st jid with _ | j0 <;> simp only [hfind]
    · exact ⟨j, hj, rfl, le_refl _⟩
    · have key := mono_map_case st.jobs
        (fun x => if x.id = jid then driverUpdate outcome now x else x)
        (fun x hx => keyedUpdate_mono jid _ (driverUpdate_mono outcome now) x (h x hx)) k j hj
      split
      · split <;> exact key
      · split <;> exact key
      · exact ⟨j, hj, rfl, le_refl _⟩
  | cancelJob jid now =>
    simp only [applyOp, cancel_job]
    rcases hfind : get_scan_job st jid with _ | j0 <;> simp only [hfind]
    · exact ⟨j, hj, rfl, le_refl _⟩
    · by_cases hT : j0.status.isTerminal = true
      · rw [if_pos hT]; exact ⟨j, hj, rfl, le_refl _⟩
      · rw [if_neg hT]
        refine mono_map_case st.jobs _ ?_ k j hj
        intro x hx
        refine keyedUpdate_mono jid
          (fun y => if y.status.isTerminal then y
            else { y with status := .Cancelled, completed_at := some now })
          ?_ x (h x hx)
        intro y hy
        by_cases hyT : y.status.isTerminal = true
        · simp only [if_pos hyT]; exact ⟨by simp, le_refl _⟩
        · simp only [if_neg hyT]; exact ⟨by simp, le_refl _⟩
  | simulateEvents pick => exact ⟨j, hj, rfl, le_refl _⟩
  | testConnection sid fails reason =>
    simp only [applyOp, test_connection]
    rcases hfind : findScanner st sid with _ | sc <;> simp only [hfind]
    · exact ⟨j, hj, rfl, le_refl _⟩
    · by_cases hf : fails = true
      · rw [if_pos hf]; exact ⟨j, hj, rfl, le_refl _⟩
      · rw [if_neg hf]; exact ⟨j, hj, rfl, le_refl _⟩
  | resetStatus sid =>
    simp only [applyOp, reset_status]
    rcases hfind : findScanner st sid with _ | sc <;> simp only [hfind]
    · exact ⟨j, hj, rfl, le_refl _⟩
    · exact ⟨j, hj, rfl, le_refl _⟩
  | addScanner spec =>
    simp only [applyOp, add_scanner]
    split
    · exact ⟨j, hj, rfl, le_refl _⟩
    · split
      · exact ⟨j, hj, rfl, le_refl _⟩
      · exact ⟨j, hj, rfl, le_refl _⟩
  | removeScanner sid =>
    simp only [applyOp, remove_scanner]
    rcases hfind : findScanner st sid with _ | sc <;> simp only [hfind]
    · exact ⟨j, hj, rfl, le_refl _⟩
    · by_cases hc : scannerClaimed st.jobs sid = true
      · rw [if_pos hc]; exact ⟨j, hj, rfl, le_refl _⟩
      · rw [if_neg hc]; exact ⟨j, hj, rfl, le_refl _⟩

theorem jobs_mono_runOps (st : EngineState) (h : JobsInv st) (more : List EngineOp)
    (k : ℕ) (j : ScanJob) (hj : st.jobs[k]? = some j) :
    ∃ j', (runOps st more).jobs[k]? = some j' ∧ j'.id = j.id ∧ j.progress ≤ j'.progress := by
  induction more generalizing st j with
  | nil => exact ⟨j, hj, rfl, le_refl _⟩
  | cons op rest ih =>
    obtain ⟨j1, hj1, hid1, hp1⟩ := jobs_mono_applyOp st op h k j hj
    obtain ⟨j2, hj2, hid2, hp2⟩ := ih (applyOp st op) (jobsInv_applyOp st op h) j1 hj1
    exact ⟨j2, hj2, hid2.trans hid1, hp1.trans hp2⟩

/-! ## Concrete example fixtures -/

def exCaps : ScannerCapabilities := ⟨600, [.Color, .Grayscale], [.A4, .Letter], true, true⟩

def exScanner : Scanner := ⟨"s1", "Demo Scanner", .Flatbed, .Available, exCaps, .Linux⟩

def exSettings : ScanSettings := ⟨300, .Color, .A4, false, .Pdf, 85⟩

def exSeed : List Scanner := [exScanner]

def exOps : List EngineOp := [.createJob "s1" .Text exSettings "t0"]

def exJob : ScanJob := ⟨"0", "s1", .Text, exSettings, .Pending, 0, "t0", none, none⟩

def exDoneJob : ScanJob := ⟨"9", "s1", .Text, exSettings, .Cancelled, 0, "t0", some "t1", none⟩

def exTermState : EngineState := ⟨[exScanner], [exDoneJob], 1⟩

/-! ## Claims about the engine's job records -/

/-- C2: in every engine execution, every observable job has progress in
`[0, 1]` with progress `= 1` exactly when the status is `Completed` (a
`Failed` or `Cancelled` job ends below 1), and between any two observed
snapshots of the same job the progress never decreases. -/
theorem progress_monotone_bounded (seed : List Scanner) (ops more : List EngineOp)
    (k : ℕ) (j : ScanJob) (hj : (runOps (initState seed) ops).jobs[k]? = some j) :
    (∀ j0 ∈ (runOps (initState seed) ops).jobs,
        0 ≤ j0.progress ∧ j0.progress ≤ 1 ∧
        (j0.progress = 1 ↔ j0.status = JobStatus.Completed)) ∧
    ∃ j', (runOps (initState seed) (ops ++ more)).jobs[k]? = some j' ∧
      j'.id = j.id ∧ j.progress ≤ j'.progress := by
  have hinv := jobsInv_runOps ops (initState seed) (jobsInv_init seed)
  refine ⟨fun j0 hj0 => ?_, ?_⟩
  · obtain ⟨h0, h1, hiff, -⟩ := hinv j0 hj0
    exact ⟨h0, h1, hiff⟩
  · rw [runOps_append]
    exact jobs_mono_runOps _ hinv more k j hj

theorem progress_monotone_bounded_witness :
    (runOps (initState exSeed) exOps).jobs[0]? = some exJob ∧
    ((∀ j0 ∈ (runOps (initState exSeed) exOps).jobs,
        0 ≤ j0.progress ∧ j0.progress ≤ 1 ∧
        (j0.progress = 1 ↔ j0.status = JobStatus.Completed)) ∧
      ∃ j', (runOps (initState exSeed) (exOps ++ [EngineOp.startJob "0"])).jobs[0]? = some j' ∧
        j'.id = exJob.id ∧ exJob.progress ≤ j'.progress) :=
  ⟨by decide, progress_monotone_bounded exSeed exOps [EngineOp.startJob "0"] 0 exJob (by decide)⟩

/-- C3: every job record observable through `get_scan_job` or
`get_all_jobs` has `scan_result` non-null exactly when its status is
`Completed`. -/
theorem scan_result_iff_completed (seed : List Scanner) (ops : List EngineOp)
    (jobId : String) (j : ScanJob)
    (hj : get_scan_job (runOps (initState seed) ops) jobId = some j) :
    (j.scan_result ≠ none ↔ j.status = JobStatus.Completed) ∧
    ∀ j' ∈ get_all_jobs (runOps (initState seed) ops),
      (j'.scan_result ≠ none ↔ j'.status = JobStatus.Completed) := by
  have hinv := jobsInv_runOps ops (initState seed) (jobsInv_init seed)
  have hres : ∀ j' ∈ (runOps (initState seed) ops).jobs,
      (j'.scan_result ≠ none ↔ j'.status = JobStatus.Completed) := by
    intro j' hj'
    obtain ⟨-, -, -, hr⟩ := hinv j' hj'
    exact Option.ne_none_iff_isSome.trans hr
  exact ⟨hres j (List.mem_of_find?_eq_some hj), hres⟩

theorem scan_result_iff_completed_witness :
    get_scan_job (runOps (initState exSeed) exOps) "0" = some exJob ∧
    ((exJob.scan_result ≠ none ↔ exJob.status = JobStatus.Completed) ∧
      ∀ j' ∈ get_all_jobs (runOps (initState exSeed) exOps),
        (j'.scan_result ≠ none ↔ j'.status = JobStatus.Completed)) :=
  ⟨by decide, scan_result_iff_completed exSeed exOps "0" exJob (by decide)⟩

/-- C6: `cancel_job` on a job that is already terminal fails with
`InvalidTransition` and returns the state unchanged — no field of any job
record is mutated by the failed call. -/
theorem cancel_job_terminal_unchanged (st : EngineState) (jobId now : String) (j : ScanJob)
    (hj : get_scan_job st jobId = some j) (hterm : j.status.isTerminal = true) :
    cancel_job st jobId now = (Except.error ScanError.InvalidTransition, st) := by
  simp only [cancel_job, hj]
  rw [if_pos hterm]

theorem cancel_job_terminal_unchanged_witness :
    get_scan_job exTermState "9" = some exDoneJob ∧
    exDoneJob.status.isTerminal = true ∧
    cancel_job exTermState "9" "t2" = (Except.error ScanError.InvalidTransition, exTermState) :=
  ⟨by decide, by decide,
    cancel_job_terminal_unchanged exTermState "9" "t2" exDoneJob (by decide) (by decide)⟩

/-! ## Claim-invariant infrastructure -/

theorem findScanner_mem (st : EngineState) (sid : String) (sc : Scanner)
    (h : findScanner st sid = some sc) : sc ∈ st.scanners ∧ sc.id = sid := by
  refine ⟨List.mem_of_find?_eq_some h, ?_⟩
  have := List.find?_some h
  simpa using this

theorem get_scan_job_mem (st : EngineState) (jid : String) (j : ScanJob)
    (h : get_scan_job st jid = some j) : j ∈ st.jobs ∧ j.id = jid := by
  refine ⟨List.mem_of_find?_eq_some h, ?_⟩
  have := List.find?_some h
  simpa using this

theorem claimPred_true_iff (x : ScanJob) (sid : String) :
    (!x.status.isTerminal && x.scanner_id == sid) = true ↔
      x.status.isTerminal = false ∧ x.scanner_id = sid := by
  simp [Bool.and_eq_true, Bool.not_eq_true']

theorem claimsOn_map (l : List ScanJob) (u : ScanJob → ScanJob) (sid : String) :
    claimsOn (l.map u) sid =
      (l.filter fun x => !(u x).status.isTerminal && (u x).scanner_id == sid).map u :=
  filter_map_comm u _ l

theorem claimsOn_append_eq (l : List ScanJob) (a : ScanJob) (sid : String) :
    claimsOn (l ++ [a]) sid = claimsOn l sid ++ claimsOn [a] sid := by
  simp [claimsOn]

theorem claimsOn_single_ne (jb : ScanJob) (x : String) (h : jb.scanner_id ≠ x) :
    claimsOn [jb] x = [] := by
  simp only [claimsOn, List.filter_cons, List.filter_nil]
  rw [beq_eq_false_iff_ne.mpr h, Bool.and_false]
  simp

theorem claimsOn_map_subset_nil (l : List ScanJob) (u : ScanJob → ScanJob) (sid : String)
    (hu_sid : ∀ x, (u x).scanner_id = x.scanner_id)
    (hu_act : ∀ x, (u x).status.isTerminal = false → x.status.isTerminal = false)
    (hnil : claimsOn l sid = []) :
    claimsOn (l.map u) sid = [] := by
  rw [claimsOn_map, List.map_eq_nil_iff, List.filter_eq_nil_iff]
  intro x hx hpx
  obtain ⟨h1, h2⟩ := (claimPred_true_iff _ _).mp hpx
  have hxmem : x ∈ claimsOn l sid :=
    List.mem_filter.mpr ⟨hx, (claimPred_true_iff _ _).mpr ⟨hu_act x h1, by rw [← hu_sid x]; exact h2⟩⟩
  rw [hnil] at hxmem
  exact List.not_mem_nil x hxmem

theorem claimsOn_eq_singleton {l : List ScanJob} {sid : String} {j : ScanJob}
    (hlen : (claimsOn l sid).length ≤ 1) (hj : j ∈ l)
    (hact : j.status.isTerminal = false) (hsid : j.scanner_id = sid) :
    claimsOn l sid = [j] :=
  list_eq_singleton_of_length_le_one hlen
    (List.mem_filter.mpr ⟨hj, (claimPred_true_iff _ _).mpr ⟨hact, hsid⟩⟩)

theorem scannerClaimed_iff (l : List ScanJob) (sid : String) :
    scannerClaimed l sid = true ↔ claimsOn l sid ≠ [] := by
  constructor
  · intro h hnil
    obtain ⟨a, ha, hpa⟩ := List.any_eq_true.mp h
    have : a ∈ claimsOn l sid := List.mem_filter.mpr ⟨ha, hpa⟩
    rw [hnil] at this
    exact List.not_mem_nil a this
  · intro h
    cases hc : claimsOn l sid with
    | nil => exact absurd hc h
    | cons a t =>
      have hmem : a ∈ claimsOn l sid := by rw [hc]; exact List.mem_cons_self a t
      have := List.mem_filter.mp hmem
      exact List.any_eq_true.mpr ⟨a, this.1, this.2⟩

/-- Invariant preservation for a keyed job update that never reactivates a
terminal job and never moves a job to a different scanner: claims can only
shrink, so exclusivity and the claimed-implies-Busy tie are preserved when
the scanner table is untouched. -/
theorem claimInv_shrink (st : EngineState) (u : ScanJob → ScanJob)
    (hex : ClaimExclusive st) (hbusy : ClaimedBusy st)
    (hu_sid : ∀ x, (u x).scanner_id = x.scanner_id)
    (hu_act : ∀ x, (u x).status.isTerminal = false → x.status.isTerminal = false) :
    ClaimExclusive ⟨st.scanners, st.jobs.map u, st.nextJobId⟩ ∧
    ClaimedBusy ⟨st.scanners, st.jobs.map u, st.nextJobId⟩ := by
  constructor
  · intro x
    show (claimsOn (st.jobs.map u) x).length ≤ 1
    rw [claimsOn_map, List.length_map]
    refine le_trans (filter_length_le_of_imp _ _ _ ?_) (hex x)
    intro a ha
    obtain ⟨h1, h2⟩ := (claimPred_true_iff _ _).mp ha
    exact (claimPred_true_iff _ _).mpr ⟨hu_act a h1, by rw [← hu_sid a]; exact h2⟩
  · intro sc' hsc' hclaim
    refine hbusy sc' hsc' ?_
    intro hnil
    exact hclaim (claimsOn_map_subset_nil st.jobs u sc'.id hu_sid hu_act hnil)

/-- Invariant preservation for a terminal driver/cancel transition: the
claim-holding job is terminalized and its scanner released to `Available`.
The claim on the released scanner disappears (it was the only one, by
exclusivity), so the released scanner is unclaimed and every other claimed
scanner keeps its claims and its `Busy` status. -/
theorem claimInv_release (st : EngineState) (u : ScanJob → ScanJob) (j0 : ScanJob)
    (hex : ClaimExclusive st) (hbusy : ClaimedBusy st)
    (hu_sid : ∀ x, (u x).scanner_id = x.scanner_id)
    (hu_act : ∀ x, (u x).status.isTerminal = false → x.status.isTerminal = false)
    (hmem : j0 ∈ st.jobs) (hact : j0.status.isTerminal = false)
    (hterm0 : (u j0).status.isTerminal = true) :
    ClaimExclusive ⟨st.scanners.map fun s =>
        if s.id = j0.scanner_id then { s with status := .Available } else s,
      st.jobs.map u, st.nextJobId⟩ ∧
    ClaimedBusy ⟨st.scanners.map fun s =>
        if s.id = j0.scanner_id then { s with status := .Available } else s,
      st.jobs.map u, st.nextJobId⟩ := by
  have hsingle : claimsOn st.jobs j0.scanner_id = [j0] :=
    claimsOn_eq_singleton (hex _) hmem hact rfl
  have hafter : claimsOn (st.jobs.map u) j0.scanner_id = [] := by
    rw [claimsOn_map, List.map_eq_nil_iff, List.filter_eq_nil_iff]
    intro x hx hpx
    obtain ⟨h1, h2⟩ := (claimPred_true_iff _ _).mp hpx
    have hxmem : x ∈ claimsOn st.jobs j0.scanner_id :=
      List.mem_filter.mpr
        ⟨hx, (claimPred_true_iff _ _).mpr ⟨hu_act x h1, by rw [← hu_sid x]; exact h2⟩⟩
    rw [hsingle] at hxmem
    have hxj0 : x = j0 := by simpa using hxmem
    rw [hxj0, hterm0] at h1
    exact Bool.noConfusion h1
  constructor
  · exact (claimInv_shrink st u hex hbusy hu_sid hu_act).1
  · intro sc' hsc' hclaim
    obtain ⟨s0, hs0, rfl⟩ := List.mem_map.mp hsc'
    by_cases h0 : s0.id = j0.scanner_id
    · exfalso
      refine hclaim ?_
      have hid : (if s0.id = j0.scanner_id then
          { s0 with status := ScannerStatus.Available } else s0).id = s0.id := by
        split <;> rfl
      rw [hid, h0]
      exact hafter
    · rw [if_neg h0] at hclaim ⊢
      refine hbusy s0 hs0 ?_
      intro hnil
      exact hclaim (claimsOn_map_subset_nil st.jobs u s0.id hu_sid hu_act hnil)

/-- Invariant preservation for a successful `create_job`: the target scanner
had no claims (it was `Available`, and a claimed scanner is `Busy`), gains
exactly the new `Pending` job's claim, and is set to `Busy`. -/
theorem claimInv_after_create (st : EngineState) (sid : String) (jb : ScanJob)
    (hex : ClaimExclusive st) (hbusy : ClaimedBusy st)
    (hnone : claimsOn st.jobs sid = [])
    (hsid : jb.scanner_id = sid) (_hact : jb.status.isTerminal = false) :
    ClaimExclusive ⟨st.scanners.map fun s =>
        if s.id = sid then { s with status := .Busy } else s,
      st.jobs ++ [jb], st.nextJobId + 1⟩ ∧
    ClaimedBusy ⟨st.scanners.map fun s =>
        if s.id = sid then { s with status := .Busy } else s,
      st.jobs ++ [jb], st.nextJobId + 1⟩ := by
  constructor
  · intro x
    show (claimsOn (st.jobs ++ [jb]) x).length ≤ 1
    rw [claimsOn_append_eq, List.length_append]
    by_cases hx : x = sid
    · subst hx
      rw [hnone]
      have hone : (claimsOn [jb] x).length ≤ 1 := by
        simp only [claimsOn, List.filter_cons, List.filter_nil]
        split <;> simp
      simpa using hone
    · rw [claimsOn_single_ne jb x (by rw [hsid]; exact fun he => hx he.symm)]
      simpa using hex x
  · intro sc' hsc' hclaim
    obtain ⟨s0, hs0, rfl⟩ := List.mem_map.mp hsc'
    by_cases h0 : s0.id = sid
    · rw [if_pos h0]
    · rw [if_neg h0] at hclaim ⊢
      refine hbusy s0 hs0 ?_
      intro hnil
      refine hclaim ?_
      rw [claimsOn_append_eq, hnil,
        claimsOn_single_ne jb s0.id (by rw [hsid]; exact fun he => h0 he.symm)]
      rfl

theorem driverUpdate_scanner_id (outcome : DriverOutcome) (now : String) (x : ScanJob) :
    (driverUpdate outcome now x).scanner_id = x.scanner_id := by
  cases hst : x.status
  case Scanning =>
    simp only [driverUpdate.eq_def, hst]
    split
    · rfl
    · cases outcome <;> rfl
  case Processing =>
    simp only [driverUpdate.eq_def, hst]
    split
    · rfl
    · cases outcome <;> rfl
  all_goals simp only [driverUpdate.eq_def, hst]

theorem driverUpdate_active (outcome : DriverOutcome) (now : String) (x : ScanJob)
    (h : (driverUpdate outcome now x).status.isTerminal = false) :
    x.status.isTerminal = false := by
  cases hst : x.status
  case Pending => rfl
  case Scanning => rfl
  case Processing => rfl
  case Completed =>
    simp [driverUpdate.eq_def, hst, JobStatus.isTerminal] at h
  case Failed reason =>
    simp [driverUpdate.eq_def, hst, JobStatus.isTerminal] at h
  case Cancelled =>
    simp [driverUpdate.eq_def, hst, JobStatus.isTerminal] at h

theorem driverUpdate_terminal (outcome : DriverOutcome) (now : String) (x : ScanJob)
    (hx : x.status = JobStatus.Scanning ∨ x.status = JobStatus.Processing)
    (hp : ¬ x.progress + progressStep < 1) :
    (driverUpdate outcome now x).status.isTerminal = true := by
  rcases hx with hst | hst <;> simp only [driverUpdate.eq_def, hst] <;>
    rw [if_neg hp] <;> cases outcome <;> rfl

theorem claimInv_applyOp (st : EngineState) (op : EngineOp) (hsafe : claimSafe op = true)
    (h : ClaimExclusive st ∧ ClaimedBusy st) :
    ClaimExclusive (applyOp st op) ∧ ClaimedBusy (applyOp st op) := by
  obtain ⟨hex, hbusy⟩ := h
  cases op with
  | createJob sid doc s now =>
    simp only [applyOp, create_job]
    rcases hfind : findScanner st sid with _ | sc <;> simp only [hfind]
    · exact ⟨hex, hbusy⟩
    · by_cases hA : sc.status = ScannerStatus.Available
      · rw [if_pos hA]
        by_cases hV : validSettings sc.capabilities s = true
        · rw [if_pos hV]
          obtain ⟨hmem, hid⟩ := findScanner_mem st sid sc hfind
          have hnone : claimsOn st.jobs sid = [] := by
            by_contra hne
            have hb := hbusy sc hmem (by rw [hid]; exact hne)
            rw [hA] at hb
            exact ScannerStatus.noConfusion hb
          exact claimInv_after_create st sid _ hex hbusy hnone rfl rfl
        · rw [if_neg hV]; exact ⟨hex, hbusy⟩
      · rw [if_neg hA]; exact ⟨hex, hbusy⟩
  | startJob jid =>
    simp only [applyOp, start_job]
    rcases hfind : get_scan_job st jid with _ | j0 <;> simp only [hfind]
    · exact ⟨hex, hbusy⟩
    · by_cases hP : j0.status = JobStatus.Pending
      · rw [if_pos hP]
        refine claimInv_shrink st
          (fun x => if x.id = jid then
            (if x.status = JobStatus.Pending then { x with status := .Scanning } else x) else x)
          hex hbusy (fun x => ?_) (fun x hx => ?_)
        · dsimp only
          by_cases hxi : x.id = jid
          · rw [if_pos hxi]
            by_cases hxP : x.status = JobStatus.Pending
            · rw [if_pos hxP]
            · rw [if_neg hxP]
          · rw [if_neg hxi]
        · dsimp only at hx
          by_cases hxi : x.id = jid
          · rw [if_pos hxi] at hx
            by_cases hxP : x.status = JobStatus.Pending
            · rw [hxP]; rfl
            · rwa [if_neg hxP] at hx
          · rwa [if_neg hxi] at hx
      · rw [if_neg hP]; exact ⟨hex, hbusy⟩
  | driverStep jid outcome now =>
    simp only [applyOp, driver_step]
    rcases hfind : get_scan_job st jid with _ | j0 <;> simp only [hfind]
    · exact ⟨hex, hbusy⟩
    · obtain ⟨hmem, hjid⟩ := get_scan_job_mem st jid j0 hfind
      have hu_sid : ∀ x : ScanJob,
          ((if x.id = jid then driverUpdate outcome now x else x)).scanner_id = x.scanner_id := by
        intro x
        by_cases hxi : x.id = jid
        · rw [if_pos hxi]; exact driverUpdate_scanner_id outcome now x
        · rw [if_neg hxi]
      have hu_act : ∀ x : ScanJob,
          ((if x.id = jid then driverUpdate outcome now x else x)).status.isTerminal = false →
            x.status.isTerminal = false := by
        intro x hx
        by_cases hxi : x.id = jid
        · rw [if_pos hxi] at hx; exact driverUpdate_active outcome now x hx
        · rwa [if_neg hxi] at hx
      cases hst : j0.status
      case Pending => exact ⟨hex, hbusy⟩
      case Completed => exact ⟨hex, hbusy⟩
      case Failed reason => exact ⟨hex, hbusy⟩
      case Cancelled => exact ⟨hex, hbusy⟩
      case Scanning =>
        by_cases hp : j0.progress + progressStep < 1
        · rw [if_pos hp]
          exact claimInv_shrink st _ hex hbusy hu_sid hu_act
        · rw [if_neg hp]
          exact claimInv_release st _ j0 hex hbusy hu_sid hu_act hmem
            (by rw [hst]; rfl)
            (by rw [if_pos hjid]
                exact driverUpdate_terminal outcome now j0 (Or.inl hst) hp)
      case Processing =>
        by_cases hp : j0.progress + progressStep < 1
        · rw [if_pos hp]
          exact claimInv_shrink st _ hex hbusy hu_sid hu_act
        · rw [if_neg hp]
          exact claimInv_release st _ j0 hex hbusy hu_sid hu_act hmem
            (by rw [hst]; rfl)
            (by rw [if_pos hjid]
                exact driverUpdate_terminal outcome now j0 (Or.inr hst) hp)
  | cancelJob jid now =>
    simp only [applyOp, cancel_job]
    rcases hfind : get_scan_job st jid with _ | j0 <;> simp only [hfind]
    · exact ⟨hex, hbusy⟩
    · by_cases hT : j0.status.isTerminal = true
      · rw [if_pos hT]; exact ⟨hex, hbusy⟩
      · rw [if_neg hT]
        obtain ⟨hmem, hjid⟩ := get_scan_job_mem st jid j0 hfind
        have hT' : j0.status.isTerminal = false := by
          cases hb : j0.status.isTerminal with
          | false => rfl
          | true => exact absurd hb hT
        refine claimInv_release st
          (fun x => if x.id = jid then
            (if x.status.isTerminal then x
              else { x with status := .Cancelled, completed_at := some now }) else x)
          j0 hex hbusy (fun x => ?_) (fun x hx => ?_) hmem hT' ?_
        · dsimp only
          by_cases hxi : x.id = jid
          · rw [if_pos hxi]
            by_cases hxT : x.status.isTerminal = true
            · rw [if_pos hxT]
            · rw [if_neg hxT]
          · rw [if_neg hxi]
        · dsimp only at hx
          by_cases hxi : x.id = jid
          · rw [if_pos hxi] at hx
            by_cases hxT : x.status.isTerminal = true
            · rwa [if_pos hxT] at hx
            · cases hb : x.status.isTerminal with
              | false => rfl
              | true => exact absurd hb hxT
          · rwa [if_neg hxi] at hx
        · dsimp only
          rw [if_pos hjid, if_neg hT]
          rfl
  | simulateEvents pick =>
    simp only [applyOp, simulate_events]
    constructor
    · exact hex
    · intro sc' hsc' hclaim
      obtain ⟨s0, hs0, rfl⟩ := List.mem_map.mp hsc'
      by_cases hc : scannerClaimed st.jobs s0.id = true
      · rw [if_pos hc] at hclaim ⊢
        exact hbusy s0 hs0 hclaim
      · exfalso
        have hempty : claimsOn st.jobs s0.id = [] := by
          cases hcc : claimsOn st.jobs s0.id with
          | nil => rfl
          | cons a t =>
            exact absurd ((scannerClaimed_iff st.jobs s0.id).mpr (by rw [hcc]; simp)) hc
        rw [if_neg hc] at hclaim
        rcases hpick : pick s0.id with _ | ns <;> rw [hpick] at hclaim
        · exact hclaim hempty
        · exact hclaim hempty
  | testConnection sid fails reason =>
    have hff : fails = false := by simpa [claimSafe] using hsafe
    simp only [applyOp, test_connection]
    rcases hfind : findScanner st sid with _ | sc <;> simp only [hfind]
    · exact ⟨hex, hbusy⟩
    · rw [if_neg (show ¬ fails = true by simp [hff])]
      exact ⟨hex, hbusy⟩
  | resetStatus sid =>
    simp only [claimSafe] at hsafe
    exact Bool.noConfusion hsafe
  | addScanner spec =>
    simp only [applyOp, add_scanner]
    split
    · exact ⟨hex, hbusy⟩
    · by_cases hg : ((st.scanners.any fun s => s.id == spec.id) ||
          st.jobs.any fun j => j.scanner_id == spec.id) = true
      · rw [if_pos hg]; exact ⟨hex, hbusy⟩
      · rw [if_neg hg]
        constructor
        · exact hex
        · intro sc' hsc' hclaim
          rcases List.mem_append.mp hsc' with hold | hnew
          · exact hbusy sc' hold hclaim
          · exfalso
            apply hclaim
            rw [List.mem_singleton.mp hnew]
            show claimsOn st.jobs spec.id = []
            simp only [claimsOn]
            rw [List.filter_eq_nil_iff]
            intro x hx hpx
            obtain ⟨-, h2⟩ := (claimPred_true_iff _ _).mp hpx
            apply hg
            have hany : (st.jobs.any fun j => j.scanner_id == spec.id) = true :=
              List.any_eq_true.mpr ⟨x, hx, by rw [h2]; simp⟩
            rw [hany, Bool.or_true]
  | removeScanner sid =>
    simp only [applyOp, remove_scanner]
    rcases hfind : findScanner st sid with _ | sc <;> simp only [hfind]
    · exact ⟨hex, hbusy⟩
    · by_cases hc : scannerClaimed st.jobs sid = true
      · rw [if_pos hc]; exact ⟨hex, hbusy⟩
      · rw [if_neg hc]
        constructor
        · exact hex
        · intro sc' hsc' hclaim
          exact hbusy sc' (List.mem_of_mem_filter hsc') hclaim

theorem claimInv_init (seed : List Scanner) :
    ClaimExclusive (initState seed) ∧ ClaimedBusy (initState seed) := by
  constructor
  · intro sid
    simp [claimsOn, initState]
  · intro sc hsc hclaim
    exact absurd rfl hclaim

theorem claimInv_runOps (ops : List EngineOp) (st : EngineState)
    (hops : ∀ op ∈ ops, claimSafe op = true)
    (h : ClaimExclusive st ∧ ClaimedBusy st) :
    ClaimExclusive (runOps st ops) ∧ ClaimedBusy (runOps st ops) := by
  induction ops generalizing st with
  | nil => exact h
  | cons op rest ih =>
    exact ih (applyOp st op) (fun o ho => hops o (List.mem_cons_of_mem _ ho))
      (claimInv_applyOp st op (hops op (List.mem_cons_self _ _)) h)

/-! ## Claim C1 -/

/-- C1 (amended): in every execution that contains no `reset_scanner_status`
call and no failing `test_connection`, at most one non-terminal job holds a
claim on a given scanner at a time, and a scanner claimed by a non-terminal
job has status `Busy` throughout the claim interval.  (As stated, the claim
fails: `simulate_events` may set an unclaimed scanner `Busy`, and
`reset_scanner_status` can force a claimed scanner back to `Available`,
after which a second job can claim it — see the counterexample.) -/
theorem claim_exclusive_busy (seed : List Scanner) (ops : List EngineOp)
    (hops : ∀ op ∈ ops, claimSafe op = true) :
    ClaimExclusive (runOps (initState seed) ops) ∧
    ClaimedBusy (runOps (initState seed) ops) :=
  claimInv_runOps ops (initState seed) hops (claimInv_init seed)

theorem claim_exclusive_busy_witness :
    (∀ op ∈ exOps, claimSafe op = true) ∧
    (ClaimExclusive (runOps (initState exSeed) exOps) ∧
      ClaimedBusy (runOps (initState exSeed) exOps)) :=
  ⟨by decide, claim_exclusive_busy exSeed exOps (by decide)⟩

def cexScanner2 : Scanner := ⟨"s2", "Second Scanner", .Flatbed, .Available, exCaps, .Linux⟩

def cexSeed : List Scanner := [exScanner, cexScanner2]

/-- A trace violating the claim as stated: a job claims `s1`, then
`reset_scanner_status` forces `s1` back to `Available` while the claim is
live, `simulate_events` sets the unclaimed `s2` to `Busy`, and a second
`create_job` on `s1` succeeds, producing two live claims. -/
def cexOps : List EngineOp :=
  [.createJob "s1" .Text exSettings "t0",
   .resetStatus "s1",
   .simulateEvents fun sid => if sid = "s2" then some .Busy else none,
   .createJob "s1" .Text exSettings "t1"]

def cexState : EngineState := runOps (initState cexSeed) cexOps

def cexMidState : EngineState := runOps (initState cexSeed) (cexOps.take 2)

/-- C1 counterexample: after the trace `cexOps`, scanner `s1` carries two
claims of non-terminal jobs (exclusivity is violated); mid-trace, `s1` is
`Available` while claimed (the Busy-interval is violated); and `s2` is
`Busy` without any claim (Busy does not imply claimed). -/
theorem claim_exclusive_busy_counterexample :
    (claimsOn cexState.jobs "s1").length = 2 ∧
    ¬ ClaimExclusive cexState ∧
    (findScanner cexMidState "s1").map Scanner.status = some ScannerStatus.Available ∧
    (claimsOn cexMidState.jobs "s1").length = 1 ∧
    (findScanner cexState "s2").map Scanner.status = some ScannerStatus.Busy ∧
    claimsOn cexState.jobs "s2" = [] := by
  refine ⟨by decide, ?_, by decide, by decide, by decide, by decide⟩
  intro hex
  have h1 := hex "s1"
  have h2 : (claimsOn cexState.jobs "s1").length = 2 := by decide
  omega
